import Mathlib

/-!
Shallow embedding of `src/utils/actions.ts` from the linear-cli repository.

The file models the four exported operations (`openIssuePage`,
`openProjectPage`, `openTeamAssigneeView`, `startWorkOnIssue`) and their
private helpers (`checkoutBranch`, `createBranch`, `findAvailableBranchName`)
as pure Lean functions over an explicit environment of external
collaborators (the git `branchExists` check, the interactive prompt, the
subprocess exit statuses, the tracker API client and the configuration
provider).  Effectful behaviour is captured as an explicit trace of events;
`Deno.exit` is modelled as an `exited` outcome that aborts the remainder of
the function.  The potentially unbounded suffix-search loop is modelled with
explicit fuel.
-/

namespace LinearCli

/-! ### JSON values and serialization

`openTeamAssigneeView` serializes the fixed filter object with
`JSON.stringify`.  We model the JSON fragment actually used (booleans,
strings without escape sequences, arrays, objects with ordered fields) and
`JSON.stringify`'s canonical compact output. -/

/-- JSON values, restricted to the fragment used by the program. -/
inductive Json where
  | bool (b : Bool)
  | str (s : String)
  | arr (elems : List Json)
  | obj (fields : List (String × Json))
deriving Repr

mutual

/-- Compact serialization matching `JSON.stringify` (no spaces, fields in
insertion order, no escaping needed for the keys used here). -/
def jsonStringify : Json → String
  | Json.bool b => if b then "true" else "false"
  | Json.str s => "\x22" ++ s ++ "\x22"
  | Json.arr xs => "[" ++ jsonStringifyArr xs ++ "]"
  | Json.obj fs => "\x7b" ++ jsonStringifyObj fs ++ "\x7d"

/-- Comma-separated serialization of array elements. -/
def jsonStringifyArr : List Json → String
  | [] => ""
  | [x] => jsonStringify x
  | x :: y :: rest => jsonStringify x ++ "," ++ jsonStringifyArr (y :: rest)

/-- Comma-separated serialization of object fields. -/
def jsonStringifyObj : List (String × Json) → String
  | [] => ""
  | [(k, v)] => "\x22" ++ k ++ "\x22:" ++ jsonStringify v
  | (k, v) :: p :: rest =>
      "\x22" ++ k ++ "\x22:" ++ jsonStringify v ++ "," ++ jsonStringifyObj (p :: rest)

end

/-! ### Base64

`@std/encoding/base64`'s `encodeBase64` is standard base64 with `=`
padding over the UTF-8 bytes of the input.  All strings involved here are
ASCII, so the UTF-8 bytes are exactly the character codes. -/

/-- The standard base64 alphabet. -/
def base64Chars : List Char :=
  "ABCDEFGHIJKLMNOPQRSTUVWXYZabcdefghijklmnopqrstuvwxyz0123456789+/".toList

/-- Character for a sextet value. -/
def base64Char (n : Nat) : Char := base64Chars.getD n 'A'

/-- Standard base64 encoding of a byte list, with `=` padding. -/
def encodeBase64Bytes : List Nat → List Char
  | [] => []
  | [a] =>
      [base64Char (a / 4), base64Char (a % 4 * 16), '=', '=']
  | [a, b] =>
      [base64Char (a / 4), base64Char (a % 4 * 16 + b / 16),
       base64Char (b % 16 * 4), '=']
  | a :: b :: c :: rest =>
      base64Char (a / 4) :: base64Char (a % 4 * 16 + b / 16) ::
      base64Char (b % 16 * 4 + c / 64) :: base64Char (c % 64) ::
      encodeBase64Bytes rest

/-- UTF-8 bytes of an ASCII string (every character code below 128). -/
def strBytes (s : String) : List Nat := s.toList.map Char.toNat

/-- All characters of the string are ASCII, so `strBytes` is its UTF-8. -/
def isAscii (s : String) : Bool := s.toList.all (fun c => c.toNat < 128)

/-- Base64 encoding of an ASCII string, as done by `encodeBase64`. -/
def encodeBase64Str (s : String) : String :=
  String.mk (encodeBase64Bytes (strBytes s))

/-- Index of a character in the base64 alphabet. -/
def base64ValAux : List Char → Nat → Char → Option Nat
  | [], _, _ => none
  | d :: ds, i, c => if d = c then some i else base64ValAux ds (i + 1) c

/-- Sextet value of a base64 character. -/
def base64Val (c : Char) : Option Nat := base64ValAux base64Chars 0 c

/-- Base64 decoding of a padded character stream back to bytes. -/
def decodeBase64Chars : List Char → Option (List Nat)
  | [] => some []
  | [a, b, '=', '='] =>
      match base64Val a, base64Val b with
      | some va, some vb => some [va * 4 + vb / 16]
      | _, _ => none
  | [a, b, c, '='] =>
      match base64Val a, base64Val b, base64Val c with
      | some va, some vb, some vc =>
          some [va * 4 + vb / 16, vb % 16 * 16 + vc / 4]
      | _, _, _ => none
  | a :: b :: c :: d :: rest =>
      match base64Val a, base64Val b, base64Val c, base64Val d,
            decodeBase64Chars rest with
      | some va, some vb, some vc, some vd, some tail =>
          some ((va * 4 + vb / 16) :: (vb % 16 * 16 + vc / 4) ::
                (vc % 4 * 64 + vd) :: tail)
      | _, _, _, _, _ => none
  | _ => none

/-- Base64 decoding of a padded string. -/
def decodeBase64Str (s : String) : Option (List Nat) :=
  decodeBase64Chars s.toList

/-- String from ASCII byte values. -/
def bytesToStr (bs : List Nat) : String :=
  String.mk (bs.map Char.ofNat)

/-- Removal of every `=` character, modelling `.replace(/=/g, "")`. -/
def stripPadding (s : String) : String :=
  String.mk (s.toList.filter (fun c => c ≠ '='))

/-- Restoration of base64 `=` padding to a multiple-of-four length. -/
def restorePadding (s : String) : String :=
  s ++ String.mk (List.replicate ((4 - s.length % 4) % 4) '=')

/-! ### A JSON parser for the fragment, to state the round-trip law. -/

/-- Parses the contents of a JSON string literal up to the closing quote. -/
def parseStrAux : List Char → Option (List Char × List Char)
  | [] => none
  | '\x22' :: rest => some ([], rest)
  | c :: rest =>
      match parseStrAux rest with
      | none => none
      | some (s, r) => some (c :: s, r)

mutual

/-- Parses one JSON value from the stream (fuelled). -/
def parseValue : Nat → List Char → Option (Json × List Char)
  | 0, _ => none
  | _ + 1, 't' :: 'r' :: 'u' :: 'e' :: rest => some (Json.bool true, rest)
  | _ + 1, 'f' :: 'a' :: 'l' :: 's' :: 'e' :: rest => some (Json.bool false, rest)
  | _ + 1, '\x22' :: rest =>
      match parseStrAux rest with
      | none => none
      | some (s, r) => some (Json.str (String.mk s), r)
  | _ + 1, '[' :: ']' :: rest => some (Json.arr [], rest)
  | fuel + 1, '[' :: rest =>
      match parseElems fuel rest with
      | none => none
      | some (xs, r) => some (Json.arr xs, r)
  | _ + 1, '\x7b' :: '\x7d' :: rest => some (Json.obj [], rest)
  | fuel + 1, '\x7b' :: rest =>
      match parseFields fuel rest with
      | none => none
      | some (fs, r) => some (Json.obj fs, r)
  | _ + 1, _ => none

/-- Parses array elements after the opening bracket (fuelled). -/
def parseElems : Nat → List Char → Option (List Json × List Char)
  | 0, _ => none
  | fuel + 1, cs =>
      match parseValue fuel cs with
      | none => none
      | some (x, ',' :: r) =>
          match parseElems fuel r with
          | none => none
          | some (xs, r2) => some (x :: xs, r2)
      | some (x, ']' :: r) => some ([x], r)
      | some _ => none

/-- Parses object fields after the opening brace (fuelled). -/
def parseFields : Nat → List Char → Option (List (String × Json) × List Char)
  | 0, _ => none
  | fuel + 1, '\x22' :: cs =>
      match parseStrAux cs with
      | none => none
      | some (k, ':' :: r) =>
          match parseValue fuel r with
          | none => none
          | some (v, ',' :: r2) =>
              match parseFields fuel r2 with
              | none => none
              | some (fs, r3) => some ((String.mk k, v) :: fs, r3)
          | some (v, '\x7d' :: r2) => some ([(String.mk k, v)], r2)
          | some _ => none
      | some _ => none
  | _ + 1, _ => none

end

/-- Parses a complete JSON document. -/
def jsonParse (s : String) : Option Json :=
  match parseValue (s.length + 1) s.toList with
  | some (j, []) => some j
  | _ => none

/-! ### Page openers

The three exported page-opening functions.  External collaborators
(`getIssueIdentifier`, `getTeamKey`, `getOption "workspace"`) are modelled
by an environment record holding their results; `Deno.exit(1)` becomes an
`exited` outcome (so nothing after it happens), and a successful run ends
by handing exactly one URL to the OS opener. -/

/-- Results of the external collaborator calls made by the page openers. -/
structure OpenEnv where
  issueIdResolved : Option String
  teamKeyOpt : Option String
  workspaceOpt : Option String
deriving Repr

/-- Outcome of a page-opening operation: process exit (with the printed
error message) before any URL was opened, or exactly one URL handed to the
OS opener (with the app name when app mode was requested). -/
inductive OpenResult where
  | exited (code : Nat) (msg : String)
  | opened (url : String) (app : Option String)
deriving DecidableEq, Repr

/-- JavaScript string-falsiness of an optional string (`undefined` or `""`). -/
def strFalsy : Option String → Bool
  | none => true
  | some s => s = ""

/-- Hostname used in every URL built by the program. -/
def trackerHost : String := "linear.app"

/-- Error printed when no issue id can be resolved. -/
def noIssueIdMsg : String :=
  "The current branch does not contain a valid linear issue id."

/-- Error printed when the workspace option is missing. -/
def noWorkspaceMsg : String :=
  "workspace is not set via command line, configuration file, or environment."

/-- Error printed when no team id can be determined. -/
def noTeamMsg : String :=
  "Could not determine team id from configuration or directory name."

/-- App parameter passed to the OS opener. -/
def appArg (appMode : Bool) : Option String :=
  if appMode then some "Linear" else none

/-- Embedding of `openIssuePage`. -/
def openIssuePage (env : OpenEnv) (appMode : Bool) : OpenResult :=
  if strFalsy env.issueIdResolved then OpenResult.exited 1 noIssueIdMsg
  else
    let issueId := env.issueIdResolved.getD ""
    if strFalsy env.workspaceOpt then OpenResult.exited 1 noWorkspaceMsg
    else
      let workspace := env.workspaceOpt.getD ""
      OpenResult.opened
        ("https://" ++ trackerHost ++ "/" ++ workspace ++ "/issue/" ++ issueId)
        (appArg appMode)

/-- Embedding of `openProjectPage`. -/
def openProjectPage (env : OpenEnv) (projectId : String) (appMode : Bool) :
    OpenResult :=
  if strFalsy env.workspaceOpt then OpenResult.exited 1 noWorkspaceMsg
  else
    let workspace := env.workspaceOpt.getD ""
    OpenResult.opened
      ("https://" ++ trackerHost ++ "/" ++ workspace ++ "/project/" ++ projectId)
      (appArg appMode)

/-- The fixed filter object built by `openTeamAssigneeView`. -/
def filterObj : Json :=
  Json.obj [("and", Json.arr [Json.obj [("assignee",
    Json.obj [("or", Json.arr [Json.obj [("isMe",
      Json.obj [("eq", Json.bool true)])]])])]])]

/-- The encoded filter query parameter:
`encodeBase64(JSON.stringify(filterObj)).replace(/=/g, "")`. -/
def encodedFilter : String :=
  stripPadding (encodeBase64Str (jsonStringify filterObj))

/-- Embedding of `openTeamAssigneeView`. -/
def openTeamAssigneeView (env : OpenEnv) (appMode : Bool) : OpenResult :=
  if strFalsy env.teamKeyOpt then OpenResult.exited 1 noTeamMsg
  else
    let teamId := env.teamKeyOpt.getD ""
    if strFalsy env.workspaceOpt then OpenResult.exited 1 noWorkspaceMsg
    else
      let workspace := env.workspaceOpt.getD ""
      OpenResult.opened
        ("https://" ++ trackerHost ++ "/" ++ workspace ++ "/team/" ++ teamId ++
          "/active?filter=" ++ encodedFilter)
        (appArg appMode)

/-! ### The start-work workflow

`startWorkOnIssue` and its private helpers are modelled as trace-producing
functions.  The environment holds the results of all external collaborators:
`branchExists`, the interactive prompt answer, subprocess exit statuses
(keyed by executable and argument list), the tracker client and the
configuration option `prefer_graphite`.  The tracker calls
`getStartedState` and `updateIssueState` may throw; this is modelled with
`Except String`. -/

/-- Workflow state returned by `getStartedState`. -/
structure WorkflowState where
  id : String
  name : String
deriving DecidableEq, Repr

/-- Observable events of a `startWorkOnIssue` run, in order.  Function-call
markers (`…Call`) record that the named function was invoked with the given
arguments. -/
inductive Event where
  | fetchIssueDetailsCall (issueId : String)
  | branchExistsCheck (name : String)
  | promptUser (message : String)
  | findAvailableCall (baseName : String)
  | checkoutBranchCall (name : String) (preferGraphite : Bool)
  | createBranchCall (name : String) (preferGraphite : Bool) (src : Option String)
  | runCmd (exe : String) (args : List String)
  | getStartedStateCall (teamId : String)
  | updateIssueStateCall (issueId : String) (stateId : String)
  | logOut (msg : String)
  | logErr (msg : String)
deriving DecidableEq, Repr

/-- Final outcome of a run: normal return or process exit. -/
inductive Outcome where
  | normal
  | exited (code : Nat)
deriving DecidableEq, Repr

/-- External collaborators of `startWorkOnIssue`. -/
structure Env where
  /-- Result of `branchExists` for each name. -/
  branchExists : String → Bool
  /-- Value chosen at the `Select.prompt` (the code compares it to
  `"switch"`). -/
  promptAnswer : String
  /-- Exit-status success of a spawned subprocess, by executable and
  arguments. -/
  cmdSuccess : String → List String → Bool
  /-- `branchName` field of `fetchIssueDetails issueId true`. -/
  branchNameOf : String → String
  /-- Configuration option `prefer_graphite` (`getOption`). -/
  preferGraphiteOpt : Option String
  /-- Result of `getStartedState teamId`; `Except.error` models a throw. -/
  startedState : String → Except String WorkflowState
  /-- Result of `updateIssueState issueId stateId`; `Except.error` models a
  throw. -/
  updateResult : String → String → Except String Unit

/-- Evaluation of `getOption("prefer_graphite") === "true"`. -/
def preferGraphiteFlag (env : Env) : Bool :=
  env.preferGraphiteOpt == some "true"

/-- Embedding of the private `checkoutBranch`: runs `gt checkout` or
`git checkout`, logs on success, returns the success flag. -/
def checkoutBranch (env : Env) (branchName : String) (preferGraphite : Bool) :
    List Event × Bool :=
  if preferGraphite then
    let ok := env.cmdSuccess "gt" ["checkout", branchName]
    (Event.checkoutBranchCall branchName preferGraphite ::
     Event.runCmd "gt" ["checkout", branchName] ::
     (if ok then
        [Event.logOut ("✓ Switched to '" ++ branchName ++ "' using Graphite")]
      else []), ok)
  else
    let ok := env.cmdSuccess "git" ["checkout", branchName]
    (Event.checkoutBranchCall branchName preferGraphite ::
     Event.runCmd "git" ["checkout", branchName] ::
     (if ok then [Event.logOut ("✓ Switched to '" ++ branchName ++ "'")]
      else []), ok)

/-- JavaScript `gitSourceRef || "HEAD"`: `undefined` and `""` are falsy. -/
def orHead : Option String → String
  | none => "HEAD"
  | some s => if s = "" then "HEAD" else s

/-- Embedding of the private `createBranch`: runs `gt create` or
`git checkout -b <name> <sourceRef or HEAD>`, logs on success, returns the
success flag. -/
def createBranch (env : Env) (branchName : String) (preferGraphite : Bool)
    (gitSourceRef : Option String) : List Event × Bool :=
  if preferGraphite then
    let ok := env.cmdSuccess "gt" ["create", branchName]
    (Event.createBranchCall branchName preferGraphite gitSourceRef ::
     Event.runCmd "gt" ["create", branchName] ::
     (if ok then
        [Event.logOut ("✓ Created and switched to branch '" ++ branchName ++
          "' using Graphite")]
      else []), ok)
  else
    let ok := env.cmdSuccess "git"
      ["checkout", "-b", branchName, orHead gitSourceRef]
    (Event.createBranchCall branchName preferGraphite gitSourceRef ::
     Event.runCmd "git" ["checkout", "-b", branchName, orHead gitSourceRef] ::
     (if ok then
        [Event.logOut ("✓ Created and switched to branch '" ++ branchName ++ "'")]
      else []), ok)

/-- Candidate branch name probed at a given suffix. -/
def suffixName (baseName : String) (suffix : Nat) : String :=
  baseName ++ "-" ++ toString suffix

/-- Embedding of the loop body of `findAvailableBranchName`, starting at a
given suffix, with explicit fuel for the unbounded `while` loop; `none`
means the fuel was exhausted before an unused name was found. -/
def findAvailableAux (be : String → Bool) (baseName : String) :
    Nat → Nat → Option (List Event × String)
  | _, 0 => none
  | suffix, fuel + 1 =>
      let newBranch := suffixName baseName suffix
      if be newBranch then
        match findAvailableAux be baseName (suffix + 1) fuel with
        | none => none
        | some (tr, r) => some (Event.branchExistsCheck newBranch :: tr, r)
      else some ([Event.branchExistsCheck newBranch], newBranch)

/-- Embedding of the private `findAvailableBranchName` (suffix starts
at 1). -/
def findAvailableBranchName (be : String → Bool) (baseName : String)
    (fuel : Nat) : Option (List Event × String) :=
  findAvailableAux be baseName 1 fuel

/-- The branch-handling phase of `startWorkOnIssue` (lines 163–183): checks
existence of the issue's branch name, prompts on a collision, and performs
the checkout or creation.  Returns the trace and
`branchOperationSucceeded`, or `none` when the suffix-search fuel runs
out. -/
def branchPhase (env : Env) (branchName : String) (preferGraphite : Bool)
    (gitSourceRef : Option String) (fuel : Nat) :
    Option (List Event × Bool) :=
  if env.branchExists branchName then
    let promptEv := Event.promptUser
      ("Branch " ++ branchName ++ " already exists. What would you like to do?")
    if env.promptAnswer = "switch" then
      let (tr, ok) := checkoutBranch env branchName preferGraphite
      some (Event.branchExistsCheck branchName :: promptEv :: tr, ok)
    else
      match findAvailableBranchName env.branchExists branchName fuel with
      | none => none
      | some (trF, newBranch) =>
          let (trC, ok) := createBranch env newBranch preferGraphite gitSourceRef
          some (Event.branchExistsCheck branchName :: promptEv ::
            Event.findAvailableCall branchName :: (trF ++ trC), ok)
  else
    let (trC, ok) := createBranch env branchName preferGraphite gitSourceRef
    some (Event.branchExistsCheck branchName :: trC, ok)

/-- The post-branch phase of `startWorkOnIssue` (lines 185–200): on branch
success, the `try` block fetches the started state, checks the issue id,
updates the issue state, and catches any thrown error; on branch failure it
only logs. -/
def statePhase (env : Env) (issueId teamId : String) :
    List Event × Outcome :=
  match env.startedState teamId with
  | Except.error e =>
      ([Event.getStartedStateCall teamId,
        Event.logErr ("Failed to update issue state: " ++ e)], Outcome.normal)
  | Except.ok state =>
      if issueId = "" then
        ([Event.getStartedStateCall teamId, Event.logErr "No issue ID resolved"],
         Outcome.exited 1)
      else
        match env.updateResult issueId state.id with
        | Except.error e =>
            ([Event.getStartedStateCall teamId,
              Event.updateIssueStateCall issueId state.id,
              Event.logErr ("Failed to update issue state: " ++ e)],
             Outcome.normal)
        | Except.ok _ =>
            ([Event.getStartedStateCall teamId,
              Event.updateIssueStateCall issueId state.id,
              Event.logOut ("✓ Issue state updated to '" ++ state.name ++ "'")],
             Outcome.normal)

/-- Embedding of `startWorkOnIssue issueId teamId gitSourceRef`.  `none`
means the suffix-search loop did not terminate within the given fuel. -/
def startWorkOnIssue (env : Env) (issueId teamId : String)
    (gitSourceRef : Option String) (fuel : Nat) :
    Option (List Event × Outcome) :=
  match branchPhase env (env.branchNameOf issueId) (preferGraphiteFlag env)
      gitSourceRef fuel with
  | none => none
  | some (trB, ok) =>
      if ok then
        let (trS, oc) := statePhase env issueId teamId
        some (Event.fetchIssueDetailsCall issueId :: (trB ++ trS), oc)
      else
        some (Event.fetchIssueDetailsCall issueId ::
          (trB ++ [Event.logOut "Branch operation failed - issue state not updated"]),
          Outcome.normal)

/-! ### Event classifiers

Shapes of the events each helper can emit, used to separate the phases of a
trace. -/

/-- Events emitted by `createBranch`. -/
def Event.isCreatePart : Event → Bool
  | Event.createBranchCall _ _ _ => true
  | Event.runCmd _ _ => true
  | Event.logOut _ => true
  | _ => false

/-- Events emitted by `checkoutBranch`. -/
def Event.isCheckoutPart : Event → Bool
  | Event.checkoutBranchCall _ _ => true
  | Event.runCmd _ _ => true
  | Event.logOut _ => true
  | _ => false

/-- Events emitted by the post-branch phase. -/
def Event.isStatePart : Event → Bool
  | Event.getStartedStateCall _ => true
  | Event.updateIssueStateCall _ _ => true
  | Event.logOut _ => true
  | Event.logErr _ => true
  | _ => false

/-! ### Sample environments for concrete runs -/

/-- Environment where no branch exists, every command succeeds and the
tracker client never throws. -/
def envAllFree : Env where
  branchExists := fun _ => false
  promptAnswer := "switch"
  cmdSuccess := fun _ _ => true
  branchNameOf := fun _ => "eng-123"
  preferGraphiteOpt := some "false"
  startedState := fun _ => Except.ok ⟨"state-1", "In Progress"⟩
  updateResult := fun _ _ => Except.ok ()

/-- Environment where `eng-123` and `eng-123-1` exist and the user answers
`create`. -/
def envCollide : Env :=
  { envAllFree with
    branchExists := fun n => n == "eng-123" || n == "eng-123-1"
    promptAnswer := "create" }

/-- Environment where `getStartedState` throws. -/
def envThrow : Env :=
  { envAllFree with startedState := fun _ => Except.error "network" }

/-- Environment where the branch operation fails. -/
def envCmdFail : Env :=
  { envAllFree with cmdSuccess := fun _ _ => false }

/-- Branch-phase trace of a run of `envAllFree`. -/
def trB1 : List Event :=
  [Event.branchExistsCheck "eng-123",
   Event.createBranchCall "eng-123" false none,
   Event.runCmd "git" ["checkout", "-b", "eng-123", "HEAD"],
   Event.logOut "✓ Created and switched to branch 'eng-123'"]

/-- Post-branch trace of a fully successful run on team `T`. -/
def statePart1 : List Event :=
  [Event.getStartedStateCall "T",
   Event.updateIssueStateCall "ISS-1" "state-1",
   Event.logOut "✓ Issue state updated to 'In Progress'"]

/-- Complete trace of `startWorkOnIssue` under `envAllFree`. -/
def trRun1 : List Event :=
  Event.fetchIssueDetailsCall "ISS-1" :: (trB1 ++ statePart1)

/-- Branch-phase trace of a run of `envCollide`. -/
def trB2 : List Event :=
  [Event.branchExistsCheck "eng-123",
   Event.promptUser "Branch eng-123 already exists. What would you like to do?",
   Event.findAvailableCall "eng-123",
   Event.branchExistsCheck "eng-123-1",
   Event.branchExistsCheck "eng-123-2",
   Event.createBranchCall "eng-123-2" false none,
   Event.runCmd "git" ["checkout", "-b", "eng-123-2", "HEAD"],
   Event.logOut "✓ Created and switched to branch 'eng-123-2'"]

/-- Complete trace of `startWorkOnIssue` under `envCollide`. -/
def trRun2 : List Event :=
  Event.fetchIssueDetailsCall "ISS-1" :: (trB2 ++ statePart1)

/-- Page-opener environment with no workspace configured. -/
def openEnvNoWs : OpenEnv where
  issueIdResolved := some "ENG-7"
  teamKeyOpt := some "ENG"
  workspaceOpt := none

/-- Page-opener environment with everything resolvable. -/
def openEnvFull : OpenEnv where
  issueIdResolved := some "ENG-7"
  teamKeyOpt := some "ENG"
  workspaceOpt := some "acme"

end LinearCli

namespace LinearCli

/-! ### Helper lemmas -/

/-- Membership in the two-cons-plus-conditional-log traces of the VCS
helpers. -/
lemma mem_cons_cons_ite {P : Event → Bool} {a b d : Event} {c : Prop}
    [Decidable c] (ha : P a = true) (hb : P b = true) (hd : P d = true) :
    ∀ e ∈ (a :: b :: (if c then [d] else [])), P e = true := by
  intro e he
  rcases List.mem_cons.1 he with rfl | he
  · exact ha
  rcases List.mem_cons.1 he with rfl | he
  · exact hb
  split at he
  · rcases List.mem_singleton.1 he with rfl
    exact hd
  · exact absurd he (List.not_mem_nil e)

/-- Events satisfying a classifier never include an event refuting it. -/
lemma not_mem_of_pred {P : Event → Bool} {l : List Event}
    (hall : ∀ e ∈ l, P e = true) {e : Event} (he : P e = false) : e ∉ l := by
  intro hm
  rw [hall e hm] at he
  cases he

/-- Unfolding of `checkoutBranch` in the Graphite case. -/
lemma checkoutBranch_true_eq (env : Env) (b : String) :
    checkoutBranch env b true =
      (Event.checkoutBranchCall b true :: Event.runCmd "gt" ["checkout", b] ::
        (if env.cmdSuccess "gt" ["checkout", b] then
          [Event.logOut ("✓ Switched to '" ++ b ++ "' using Graphite")]
         else []),
       env.cmdSuccess "gt" ["checkout", b]) := rfl

/-- Unfolding of `checkoutBranch` in the plain-git case. -/
lemma checkoutBranch_false_eq (env : Env) (b : String) :
    checkoutBranch env b false =
      (Event.checkoutBranchCall b false :: Event.runCmd "git" ["checkout", b] ::
        (if env.cmdSuccess "git" ["checkout", b] then
          [Event.logOut ("✓ Switched to '" ++ b ++ "'")]
         else []),
       env.cmdSuccess "git" ["checkout", b]) := rfl

/-- Unfolding of `createBranch` in the Graphite case. -/
lemma createBranch_true_eq (env : Env) (b : String) (ref : Option String) :
    createBranch env b true ref =
      (Event.createBranchCall b true ref :: Event.runCmd "gt" ["create", b] ::
        (if env.cmdSuccess "gt" ["create", b] then
          [Event.logOut ("✓ Created and switched to branch '" ++ b ++
            "' using Graphite")]
         else []),
       env.cmdSuccess "gt" ["create", b]) := rfl

/-- Unfolding of `createBranch` in the plain-git case. -/
lemma createBranch_false_eq (env : Env) (b : String) (ref : Option String) :
    createBranch env b false ref =
      (Event.createBranchCall b false ref ::
        Event.runCmd "git" ["checkout", "-b", b, orHead ref] ::
        (if env.cmdSuccess "git" ["checkout", "-b", b, orHead ref] then
          [Event.logOut ("✓ Created and switched to branch '" ++ b ++ "'")]
         else []),
       env.cmdSuccess "git" ["checkout", "-b", b, orHead ref]) := rfl

/-- Every `checkoutBranch` event is a checkout-part event. -/
lemma checkoutBranch_parts (env : Env) (b : String) (g : Bool) :
    ∀ e ∈ (checkoutBranch env b g).1, e.isCheckoutPart = true := by
  cases g
  · rw [checkoutBranch_false_eq]
    exact mem_cons_cons_ite rfl rfl rfl
  · rw [checkoutBranch_true_eq]
    exact mem_cons_cons_ite rfl rfl rfl

/-- Every `createBranch` event is a create-part event. -/
lemma createBranch_parts (env : Env) (b : String) (g : Bool)
    (ref : Option String) :
    ∀ e ∈ (createBranch env b g ref).1, e.isCreatePart = true := by
  cases g
  · rw [createBranch_false_eq]
    exact mem_cons_cons_ite rfl rfl rfl
  · rw [createBranch_true_eq]
    exact mem_cons_cons_ite rfl rfl rfl

/-- Every post-branch-phase event is a state-part event. -/
lemma statePhase_parts (env : Env) (issueId teamId : String) :
    ∀ e ∈ (statePhase env issueId teamId).1, e.isStatePart = true := by
  intro e he
  unfold statePhase at he
  rcases hst : env.startedState teamId with er | st <;> rw [hst] at he <;>
    dsimp only at he
  · simp only [List.mem_cons, List.mem_singleton, List.not_mem_nil] at he
    rcases he with rfl | rfl | h
    · rfl
    · rfl
    · cases h
  · by_cases hid : issueId = ""
    · rw [if_pos hid] at he
      simp only [List.mem_cons, List.mem_singleton, List.not_mem_nil] at he
      rcases he with rfl | rfl | h
      · rfl
      · rfl
      · cases h
    · rw [if_neg hid] at he
      rcases hup : env.updateResult issueId st.id with er | u <;> rw [hup] at he <;>
        simp only [List.mem_cons, List.mem_singleton, List.not_mem_nil] at he <;>
        rcases he with rfl | rfl | rfl | h <;> first | rfl | cases h

/-- Full characterization of the suffix-search loop: a successful run
returns the first unused suffix at or above the start, and its trace probes
every suffix from the start up to the result, in increasing order. -/
lemma findAvailableAux_spec (be : String → Bool) (base : String) :
    ∀ fuel s tr r, findAvailableAux be base s fuel = some (tr, r) →
      ∃ n, s ≤ n ∧ r = suffixName base n ∧ be (suffixName base n) = false ∧
        (∀ m, s ≤ m → m < n → be (suffixName base m) = true) ∧
        tr = (List.range' s (n + 1 - s)).map
          (fun k => Event.branchExistsCheck (suffixName base k)) := by
  intro fuel
  induction fuel with
  | zero =>
      intro s tr r h
      exact absurd h (by simp [findAvailableAux])
  | succ f ih =>
      intro s tr r h
      unfold findAvailableAux at h
      by_cases hbe : be (suffixName base s)
      · rw [if_pos hbe] at h
        rcases hfa : findAvailableAux be base (s + 1) f with _ | ⟨tr', r'⟩ <;>
          rw [hfa] at h
        · cases h
        · simp only [Option.some.injEq, Prod.mk.injEq] at h
          obtain ⟨htr, hr⟩ := h
          subst hr
          obtain ⟨n, hn, hrn, hbf, hall, htr'⟩ := ih (s + 1) tr' r' hfa
          refine ⟨n, by omega, hrn, hbf, ?_, ?_⟩
          · intro m hm1 hm2
            rcases Nat.eq_or_lt_of_le hm1 with rfl | hlt
            · exact hbe
            · exact hall m hlt hm2
          · have hrange : List.range' s (n + 1 - s) =
                s :: List.range' (s + 1) (n + 1 - (s + 1)) := by
              have h1 : n + 1 - s = (n + 1 - (s + 1)) + 1 := by omega
              rw [h1, List.range'_succ]
            rw [← htr, htr', hrange]
            rfl
      · rw [if_neg hbe] at h
        simp only [Option.some.injEq, Prod.mk.injEq] at h
        obtain ⟨htr, hr⟩ := h
        subst hr
        refine ⟨s, Nat.le_refl s, rfl, by simpa using hbe, ?_, ?_⟩
        · intro m hm1 hm2
          omega
        · rw [← htr]
          have h1 : s + 1 - s = 1 := by omega
          rw [h1, List.range'_one]
          rfl

/-- With an unused suffix at or above the start, enough fuel makes the
suffix search succeed. -/
lemma findAvailableAux_some (be : String → Bool) (base : String) :
    ∀ fuel s n, s ≤ n → be (suffixName base n) = false → n + 1 - s ≤ fuel →
      ∃ tr r, findAvailableAux be base s fuel = some (tr, r) := by
  intro fuel
  induction fuel with
  | zero =>
      intro s n hsn _ hf
      omega
  | succ f ih =>
      intro s n hsn hbf hf
      unfold findAvailableAux
      by_cases hbe : be (suffixName base s)
      · rw [if_pos hbe]
        have hne : s ≠ n := fun h => by rw [h, hbf] at hbe; cases hbe
        obtain ⟨tr, r, hr⟩ := ih (s + 1) n (by omega) hbf (by omega)
        rw [hr]
        exact ⟨_, _, rfl⟩
      · rw [if_neg hbe]
        exact ⟨_, _, rfl⟩

/-- With every suffix at or above the start in use, the suffix search
exhausts any amount of fuel. -/
lemma findAvailableAux_none (be : String → Bool) (base : String) :
    ∀ fuel s, (∀ n, s ≤ n → be (suffixName base n) = true) →
      findAvailableAux be base s fuel = none := by
  intro fuel
  induction fuel with
  | zero =>
      intro s _
      rfl
  | succ f ih =>
      intro s hall
      unfold findAvailableAux
      rw [if_pos (hall s (Nat.le_refl s))]
      rw [ih (s + 1) (fun n hn => hall n (by omega))]

/-- A probed suffix name is never the base name itself. -/
lemma suffixName_ne (base : String) (k : Nat) : suffixName base k ≠ base := by
  intro h
  have hlen := congrArg String.length h
  rw [suffixName, String.length_append, String.length_append] at hlen
  have h1 : ("-" : String).length = 1 := rfl
  rw [h1] at hlen
  omega

/-- Unfolding of `branchPhase` when the branch does not exist. -/
lemma branchPhase_absent (env : Env) (b : String) (g : Bool)
    (ref : Option String) (fuel : Nat) (h : env.branchExists b = false) :
    branchPhase env b g ref fuel =
      some (Event.branchExistsCheck b :: (createBranch env b g ref).1,
        (createBranch env b g ref).2) := by
  unfold branchPhase
  rw [h]
  rfl

/-- Unfolding of `branchPhase` when the branch exists and the user chooses
to switch. -/
lemma branchPhase_switch (env : Env) (b : String) (g : Bool)
    (ref : Option String) (fuel : Nat) (h : env.branchExists b = true)
    (ha : env.promptAnswer = "switch") :
    branchPhase env b g ref fuel =
      some (Event.branchExistsCheck b ::
        Event.promptUser ("Branch " ++ b ++
          " already exists. What would you like to do?") ::
        (checkoutBranch env b g).1,
        (checkoutBranch env b g).2) := by
  unfold branchPhase
  rw [h, if_pos rfl, if_pos ha]

/-- Unfolding of `branchPhase` when the branch exists, the user chooses to
create, and the suffix search succeeds. -/
lemma branchPhase_create (env : Env) (b : String) (g : Bool)
    (ref : Option String) (fuel : Nat) (trF : List Event) (nb : String)
    (h : env.branchExists b = true) (ha : env.promptAnswer ≠ "switch")
    (hf : findAvailableBranchName env.branchExists b fuel = some (trF, nb)) :
    branchPhase env b g ref fuel =
      some (Event.branchExistsCheck b ::
        Event.promptUser ("Branch " ++ b ++
          " already exists. What would you like to do?") ::
        Event.findAvailableCall b :: (trF ++ (createBranch env nb g ref).1),
        (createBranch env nb g ref).2) := by
  unfold branchPhase
  rw [h, if_pos rfl, if_neg ha, hf]

/-- A successful `branchPhase` in the create-after-prompt scenario requires
a successful suffix search. -/
lemma branchPhase_create_some (env : Env) (b : String) (g : Bool)
    (ref : Option String) (fuel : Nat) (trB : List Event) (ok : Bool)
    (h : env.branchExists b = true) (ha : env.promptAnswer ≠ "switch")
    (hb : branchPhase env b g ref fuel = some (trB, ok)) :
    ∃ trF nb, findAvailableBranchName env.branchExists b fuel =
      some (trF, nb) := by
  unfold branchPhase at hb
  rw [h, if_pos rfl, if_neg ha] at hb
  rcases hf : findAvailableBranchName env.branchExists b fuel with _ | ⟨trF, nb⟩
  · rw [hf] at hb
    cases hb
  · exact ⟨trF, nb, rfl⟩

/-- Classification of the events a branch phase can emit. -/
lemma branchPhase_events (env : Env) (b : String) (g : Bool)
    (ref : Option String) (fuel : Nat) (trB : List Event) (ok : Bool)
    (h : branchPhase env b g ref fuel = some (trB, ok)) :
    ∀ e ∈ trB, (∃ n, e = Event.branchExistsCheck n) ∨
      (∃ m, e = Event.promptUser m) ∨ e = Event.findAvailableCall b ∨
      e.isCheckoutPart = true ∨ e.isCreatePart = true := by
  intro e he
  by_cases hbe : env.branchExists b
  · by_cases ha : env.promptAnswer = "switch"
    · rw [branchPhase_switch env b g ref fuel hbe ha] at h
      simp only [Option.some.injEq, Prod.mk.injEq] at h
      obtain ⟨htr, -⟩ := h
      rw [← htr] at he
      rcases List.mem_cons.1 he with rfl | he
      · exact Or.inl ⟨b, rfl⟩
      rcases List.mem_cons.1 he with rfl | he
      · exact Or.inr (Or.inl ⟨_, rfl⟩)
      exact Or.inr (Or.inr (Or.inr (Or.inl (checkoutBranch_parts env b g e he))))
    · obtain ⟨trF, nb, hf⟩ := branchPhase_create_some env b g ref fuel trB ok hbe ha h
      rw [branchPhase_create env b g ref fuel trF nb hbe ha hf] at h
      simp only [Option.some.injEq, Prod.mk.injEq] at h
      obtain ⟨htr, -⟩ := h
      rw [← htr] at he
      rcases List.mem_cons.1 he with rfl | he
      · exact Or.inl ⟨b, rfl⟩
      rcases List.mem_cons.1 he with rfl | he
      · exact Or.inr (Or.inl ⟨_, rfl⟩)
      rcases List.mem_cons.1 he with rfl | he
      · exact Or.inr (Or.inr (Or.inl rfl))
      rcases List.mem_append.1 he with he | he
      · obtain ⟨n, -, -, -, -, htrF⟩ :=
          findAvailableAux_spec env.branchExists b fuel 1 trF nb hf
        rw [htrF] at he
        obtain ⟨k, -, hk⟩ := List.mem_map.1 he
        exact Or.inl ⟨suffixName b k, hk.symm⟩
      · exact Or.inr (Or.inr (Or.inr (Or.inr (createBranch_parts env nb g ref e he))))
  · rw [branchPhase_absent env b g ref fuel (by simpa using hbe)] at h
    simp only [Option.some.injEq, Prod.mk.injEq] at h
    obtain ⟨htr, -⟩ := h
    rw [← htr] at he
    rcases List.mem_cons.1 he with rfl | he
    · exact Or.inl ⟨b, rfl⟩
    exact Or.inr (Or.inr (Or.inr (Or.inr (createBranch_parts env b g ref e he))))

/-- No issue-state mutation happens during the branch phase. -/
lemma update_not_mem_branchPhase {env : Env} {b : String} {g : Bool}
    {ref : Option String} {fuel : Nat} {trB : List Event} {ok : Bool}
    (h : branchPhase env b g ref fuel = some (trB, ok)) (x s : String) :
    Event.updateIssueStateCall x s ∉ trB := by
  intro hm
  rcases branchPhase_events env b g ref fuel trB ok h _ hm with
    ⟨n, he⟩ | ⟨m, he⟩ | he | he | he <;>
    simp [Event.isCheckoutPart, Event.isCreatePart] at he

/-- No error line is printed during the branch phase. -/
lemma logErr_not_mem_branchPhase {env : Env} {b : String} {g : Bool}
    {ref : Option String} {fuel : Nat} {trB : List Event} {ok : Bool}
    (h : branchPhase env b g ref fuel = some (trB, ok)) (m : String) :
    Event.logErr m ∉ trB := by
  intro hm
  rcases branchPhase_events env b g ref fuel trB ok h _ hm with
    ⟨n, he⟩ | ⟨m', he⟩ | he | he | he <;>
    simp [Event.isCheckoutPart, Event.isCreatePart] at he

/-- Unfolding of the post-branch phase when `getStartedState` throws. -/
lemma statePhase_error (env : Env) (issueId teamId e : String)
    (h : env.startedState teamId = Except.error e) :
    statePhase env issueId teamId =
      ([Event.getStartedStateCall teamId,
        Event.logErr ("Failed to update issue state: " ++ e)],
       Outcome.normal) := by
  unfold statePhase
  rw [h]

/-- Unfolding of the post-branch phase with an empty issue id. -/
lemma statePhase_empty (env : Env) (teamId : String) (st : WorkflowState)
    (h : env.startedState teamId = Except.ok st) :
    statePhase env "" teamId =
      ([Event.getStartedStateCall teamId, Event.logErr "No issue ID resolved"],
       Outcome.exited 1) := by
  unfold statePhase
  rw [h]
  rfl

/-- Unfolding of the post-branch phase when `updateIssueState` throws. -/
lemma statePhase_updError (env : Env) (issueId teamId e : String)
    (st : WorkflowState) (hi : issueId ≠ "")
    (h : env.startedState teamId = Except.ok st)
    (hu : env.updateResult issueId st.id = Except.error e) :
    statePhase env issueId teamId =
      ([Event.getStartedStateCall teamId,
        Event.updateIssueStateCall issueId st.id,
        Event.logErr ("Failed to update issue state: " ++ e)],
       Outcome.normal) := by
  unfold statePhase
  rw [h]
  dsimp only
  rw [if_neg hi, hu]

/-- Unfolding of the post-branch phase when everything succeeds. -/
lemma statePhase_ok (env : Env) (issueId teamId : String)
    (st : WorkflowState) (hi : issueId ≠ "")
    (h : env.startedState teamId = Except.ok st)
    (hu : env.updateResult issueId st.id = Except.ok ()) :
    statePhase env issueId teamId =
      ([Event.getStartedStateCall teamId,
        Event.updateIssueStateCall issueId st.id,
        Event.logOut ("✓ Issue state updated to '" ++ st.name ++ "'")],
       Outcome.normal) := by
  unfold statePhase
  rw [h]
  dsimp only
  rw [if_neg hi, hu]

/-- With a non-empty issue id the post-branch phase never exits. -/
lemma statePhase_outcome (env : Env) (issueId teamId : String)
    (hi : issueId ≠ "") :
    (statePhase env issueId teamId).2 = Outcome.normal := by
  unfold statePhase
  rcases env.startedState teamId with e | st
  · rfl
  · dsimp only
    rw [if_neg hi]
    rcases env.updateResult issueId st.id with e | u <;> rfl

/-- Unfolding of `startWorkOnIssue` after a successful branch phase. -/
lemma startWork_branch_true (env : Env) (issueId teamId : String)
    (ref : Option String) (fuel : Nat) (trB : List Event)
    (h : branchPhase env (env.branchNameOf issueId) (preferGraphiteFlag env)
      ref fuel = some (trB, true)) :
    startWorkOnIssue env issueId teamId ref fuel =
      some (Event.fetchIssueDetailsCall issueId ::
        (trB ++ (statePhase env issueId teamId).1),
        (statePhase env issueId teamId).2) := by
  unfold startWorkOnIssue
  rw [h]
  rfl

/-- Unfolding of `startWorkOnIssue` after a failed branch phase. -/
lemma startWork_branch_false (env : Env) (issueId teamId : String)
    (ref : Option String) (fuel : Nat) (trB : List Event)
    (h : branchPhase env (env.branchNameOf issueId) (preferGraphiteFlag env)
      ref fuel = some (trB, false)) :
    startWorkOnIssue env issueId teamId ref fuel =
      some (Event.fetchIssueDetailsCall issueId ::
        (trB ++
          [Event.logOut "Branch operation failed - issue state not updated"]),
        Outcome.normal) := by
  unfold startWorkOnIssue
  rw [h]
  rfl

/-- A defined run of `startWorkOnIssue` has a defined branch phase. -/
lemma startWork_some_branchPhase (env : Env) (issueId teamId : String)
    (ref : Option String) (fuel : Nat) (tr : List Event) (oc : Outcome)
    (h : startWorkOnIssue env issueId teamId ref fuel = some (tr, oc)) :
    ∃ trB ok, branchPhase env (env.branchNameOf issueId)
      (preferGraphiteFlag env) ref fuel = some (trB, ok) := by
  unfold startWorkOnIssue at h
  rcases hb : branchPhase env (env.branchNameOf issueId)
      (preferGraphiteFlag env) ref fuel with _ | ⟨trB, ok⟩
  · rw [hb] at h
    cases h
  · exact ⟨trB, ok, rfl⟩

/-- The caught-error log line is never the missing-issue-id log line. -/
lemma failed_msg_ne (e : String) :
    "Failed to update issue state: " ++ e ≠ "No issue ID resolved" := by
  intro h
  have hlen := congrArg String.length h
  rw [String.length_append] at hlen
  have h1 : ("Failed to update issue state: " : String).length = 30 := rfl
  have h2 : ("No issue ID resolved" : String).length = 20 := rfl
  rw [h1, h2] at hlen
  omega

/-- URL prefix folding. -/
lemma urlBase_eq : "https://" ++ trackerHost ++ "/" = "https://linear.app/" := rfl

/-- The only subprocess the plain-git `createBranch` runs is
`git checkout -b <name> <ref or HEAD>`. -/
lemma runCmd_mem_createBranch_false (env : Env) (b : String)
    (ref : Option String) (exe : String) (args : List String)
    (hm : Event.runCmd exe args ∈ (createBranch env b false ref).1) :
    exe = "git" ∧ args = ["checkout", "-b", b, orHead ref] := by
  rw [createBranch_false_eq] at hm
  rcases List.mem_cons.1 hm with h | hm
  · simp at h
  rcases List.mem_cons.1 hm with h | hm
  · injection h with h1 h2
    exact ⟨h1, h2⟩
  split at hm
  · rcases List.mem_singleton.1 hm with h
    simp at h
  · exact absurd hm (List.not_mem_nil _)

/-- The only subprocess the plain-git `checkoutBranch` runs is
`git checkout <name>`. -/
lemma runCmd_mem_checkoutBranch_false (env : Env) (b : String)
    (exe : String) (args : List String)
    (hm : Event.runCmd exe args ∈ (checkoutBranch env b false).1) :
    exe = "git" ∧ args = ["checkout", b] := by
  rw [checkoutBranch_false_eq] at hm
  rcases List.mem_cons.1 hm with h | hm
  · simp at h
  rcases List.mem_cons.1 hm with h | hm
  · injection h with h1 h2
    exact ⟨h1, h2⟩
  split at hm
  · rcases List.mem_singleton.1 hm with h
    simp at h
  · exact absurd hm (List.not_mem_nil _)

/-- The suffix-search trace runs no subprocess. -/
lemma runCmd_not_mem_findTrace (be : String → Bool) (b : String) (fuel : Nat)
    (trF : List Event) (nb : String)
    (hf : findAvailableBranchName be b fuel = some (trF, nb))
    (exe : String) (args : List String) : Event.runCmd exe args ∉ trF := by
  obtain ⟨n, -, -, -, -, htrF⟩ := findAvailableAux_spec be b fuel 1 trF nb hf
  intro hm
  rw [htrF] at hm
  obtain ⟨k, -, hk⟩ := List.mem_map.1 hm
  simp at hk

/-- The post-branch phase runs no subprocess. -/
lemma runCmd_not_mem_statePhase (env : Env) (issueId teamId : String)
    (exe : String) (args : List String) :
    Event.runCmd exe args ∉ (statePhase env issueId teamId).1 :=
  not_mem_of_pred (statePhase_parts env issueId teamId) rfl

/-- Every subprocess run by a plain-git branch phase is `git`. -/
lemma runCmd_exe_branchPhase_false (env : Env) (b : String)
    (ref : Option String) (fuel : Nat) (trB : List Event) (ok : Bool)
    (h : branchPhase env b false ref fuel = some (trB, ok))
    (exe : String) (args : List String)
    (hm : Event.runCmd exe args ∈ trB) : exe = "git" := by
  by_cases hbe : env.branchExists b
  · by_cases ha : env.promptAnswer = "switch"
    · rw [branchPhase_switch env b false ref fuel hbe ha] at h
      simp only [Option.some.injEq, Prod.mk.injEq] at h
      obtain ⟨htr, -⟩ := h
      rw [← htr] at hm
      rcases List.mem_cons.1 hm with h' | hm
      · simp at h'
      rcases List.mem_cons.1 hm with h' | hm
      · simp at h'
      exact (runCmd_mem_checkoutBranch_false env b exe args hm).1
    · obtain ⟨trF, nb, hf⟩ := branchPhase_create_some env b false ref fuel trB ok hbe ha h
      rw [branchPhase_create env b false ref fuel trF nb hbe ha hf] at h
      simp only [Option.some.injEq, Prod.mk.injEq] at h
      obtain ⟨htr, -⟩ := h
      rw [← htr] at hm
      rcases List.mem_cons.1 hm with h' | hm
      · simp at h'
      rcases List.mem_cons.1 hm with h' | hm
      · simp at h'
      rcases List.mem_cons.1 hm with h' | hm
      · simp at h'
      rcases List.mem_append.1 hm with hm | hm
      · exact absurd hm (runCmd_not_mem_findTrace env.branchExists b fuel trF nb hf exe args)
      · exact (runCmd_mem_createBranch_false env nb ref exe args hm).1
  · rw [branchPhase_absent env b false ref fuel (by simpa using hbe)] at h
    simp only [Option.some.injEq, Prod.mk.injEq] at h
    obtain ⟨htr, -⟩ := h
    rw [← htr] at hm
    rcases List.mem_cons.1 hm with h' | hm
    · simp at h'
    exact (runCmd_mem_createBranch_false env b ref exe args hm).1

/-- The `createBranch` call marker heads its trace. -/
lemma createBranchCall_mem (env : Env) (b : String) (g : Bool)
    (ref : Option String) :
    Event.createBranchCall b g ref ∈ (createBranch env b g ref).1 := by
  cases g
  · rw [createBranch_false_eq]
    exact List.mem_cons_self _ _
  · rw [createBranch_true_eq]
    exact List.mem_cons_self _ _

/-- With a non-empty issue id and a resolvable started state, the
post-branch phase always records the `updateIssueState` call. -/
lemma update_mem_statePhase (env : Env) (issueId teamId : String)
    (st : WorkflowState) (hi : issueId ≠ "")
    (hst : env.startedState teamId = Except.ok st) :
    Event.updateIssueStateCall issueId st.id ∈
      (statePhase env issueId teamId).1 := by
  rcases hu : env.updateResult issueId st.id with e | u
  · rw [statePhase_updError env issueId teamId e st hi hst hu]
    simp
  · cases u
    rw [statePhase_ok env issueId teamId st hi hst hu]
    simp

/-- With a non-empty issue id, the missing-issue-id message never appears
in the post-branch phase. -/
lemma noIssueMsg_not_mem_statePhase (env : Env) (issueId teamId : String)
    (hi : issueId ≠ "") :
    Event.logErr "No issue ID resolved" ∉ (statePhase env issueId teamId).1 := by
  intro hm
  unfold statePhase at hm
  rcases hst : env.startedState teamId with e | st <;> rw [hst] at hm <;>
    dsimp only at hm
  · simp only [List.mem_cons, List.mem_singleton, List.not_mem_nil] at hm
    rcases hm with h | h | h
    · cases h
    · injection h with h'
      exact failed_msg_ne e h'.symm
    · cases h
  · rw [if_neg hi] at hm
    rcases hu : env.updateResult issueId st.id with e | u <;> rw [hu] at hm <;>
      simp only [List.mem_cons, List.mem_singleton, List.not_mem_nil] at hm
    · rcases hm with h | h | h | h
      · cases h
      · cases h
      · injection h with h'
        exact failed_msg_ne e h'.symm
      · cases h
    · rcases hm with h | h | h | h <;> cases h

/-- Any defined run decomposes into the fetch marker, the branch-phase
trace, and a tail of post-branch events. -/
lemma startWork_decompose (env : Env) (issueId teamId : String)
    (ref : Option String) (fuel : Nat) (tr trB : List Event) (oc : Outcome)
    (ok : Bool)
    (hb : branchPhase env (env.branchNameOf issueId) (preferGraphiteFlag env)
      ref fuel = some (trB, ok))
    (hs : startWorkOnIssue env issueId teamId ref fuel = some (tr, oc)) :
    ∃ rest, tr = Event.fetchIssueDetailsCall issueId :: (trB ++ rest) ∧
      ∀ e ∈ rest, e.isStatePart = true := by
  cases ok
  · rw [startWork_branch_false env issueId teamId ref fuel trB hb] at hs
    simp only [Option.some.injEq, Prod.mk.injEq] at hs
    obtain ⟨htr, -⟩ := hs
    refine ⟨[Event.logOut "Branch operation failed - issue state not updated"],
      htr.symm, ?_⟩
    intro e he
    rcases List.mem_singleton.1 he with rfl
    rfl
  · rw [startWork_branch_true env issueId teamId ref fuel trB hb] at hs
    simp only [Option.some.injEq, Prod.mk.injEq] at hs
    obtain ⟨htr, -⟩ := hs
    exact ⟨(statePhase env issueId teamId).1, htr.symm,
      statePhase_parts env issueId teamId⟩

end LinearCli

namespace LinearCli

/-! ### Claim theorems -/

/-- C5: the team active-view filter encoding — base64 of the canonical JSON
serialization of the fixed assignee-is-me filter object with all `=`
padding characters removed — is deterministic (it is a constant equal to
one concrete string), contains no `=` character, and base64-decoding it
after restoring padding reproduces the original JSON object exactly
(round-trip through the JSON parser). -/
theorem teamFilter_encoding_roundtrip :
    encodedFilter =
      "eyJhbmQiOlt7ImFzc2lnbmVlIjp7Im9yIjpbeyJpc01lIjp7ImVxIjp0cnVlfX1dfX1dfQ" ∧
    '=' ∉ encodedFilter.toList ∧
    isAscii (jsonStringify filterObj) = true ∧
    ((decodeBase64Str (restorePadding encodedFilter)).map bytesToStr).bind
      jsonParse = some filterObj :=
  ⟨rfl, by decide, rfl, rfl⟩

/-- C6: for each of the three page-opening operations, a missing workspace
configuration prevents any URL from reaching the OS opener: the result is a
process exit with status 1 carrying a printed error message. -/
theorem missing_workspace_exits_one (env : OpenEnv) (projectId : String)
    (appMode : Bool) (hw : env.workspaceOpt = none) :
    (∃ m, openIssuePage env appMode = OpenResult.exited 1 m) ∧
    openProjectPage env projectId appMode = OpenResult.exited 1 noWorkspaceMsg ∧
    (∃ m, openTeamAssigneeView env appMode = OpenResult.exited 1 m) := by
  refine ⟨?_, ?_, ?_⟩
  · by_cases hi : strFalsy env.issueIdResolved = true
    · exact ⟨noIssueIdMsg, by unfold openIssuePage; rw [if_pos hi]⟩
    · refine ⟨noWorkspaceMsg, ?_⟩
      unfold openIssuePage
      rw [if_neg hi, hw]
      rfl
  · unfold openProjectPage
    rw [hw]
    rfl
  · by_cases ht : strFalsy env.teamKeyOpt = true
    · exact ⟨noTeamMsg, by unfold openTeamAssigneeView; rw [if_pos ht]⟩
    · refine ⟨noWorkspaceMsg, ?_⟩
      unfold openTeamAssigneeView
      rw [if_neg ht, hw]
      rfl

/-- Witness for C6 at a concrete environment with no workspace set. -/
theorem missing_workspace_exits_one_witness :
    (∃ m, openIssuePage openEnvNoWs false = OpenResult.exited 1 m) ∧
    openProjectPage openEnvNoWs "proj-1" false =
      OpenResult.exited 1 noWorkspaceMsg ∧
    (∃ m, openTeamAssigneeView openEnvNoWs false = OpenResult.exited 1 m) :=
  missing_workspace_exits_one openEnvNoWs "proj-1" false rfl

/-- C8: with a resolvable workspace slug `w` and identifier `x`,
`openIssuePage` opens exactly `https://linear.app/w/issue/x` and
`openProjectPage` opens exactly `https://linear.app/w/project/x`. -/
theorem issue_and_project_urls (env : OpenEnv) (w x projectId : String)
    (appMode : Bool) (hw : env.workspaceOpt = some w) (hw' : w ≠ "")
    (hx : env.issueIdResolved = some x) (hx' : x ≠ "") :
    openIssuePage env appMode =
      OpenResult.opened ("https://linear.app/" ++ w ++ "/issue/" ++ x)
        (appArg appMode) ∧
    openProjectPage env projectId appMode =
      OpenResult.opened
        ("https://linear.app/" ++ w ++ "/project/" ++ projectId)
        (appArg appMode) := by
  have h1 : ¬(strFalsy (some x) = true) := by simp [strFalsy, hx']
  have h2 : ¬(strFalsy (some w) = true) := by simp [strFalsy, hw']
  constructor
  · unfold openIssuePage
    rw [hx, hw, if_neg h1]
    dsimp only
    rw [if_neg h2]
    dsimp only [Option.getD_some]
    rw [urlBase_eq]
  · unfold openProjectPage
    rw [hw, if_neg h2]
    dsimp only [Option.getD_some]
    rw [urlBase_eq]

/-- Witness for C8 at a concrete fully-resolvable environment. -/
theorem issue_and_project_urls_witness :
    openIssuePage openEnvFull true =
      OpenResult.opened ("https://linear.app/" ++ "acme" ++ "/issue/" ++ "ENG-7")
        (appArg true) ∧
    openProjectPage openEnvFull "roadmap" true =
      OpenResult.opened
        ("https://linear.app/" ++ "acme" ++ "/project/" ++ "roadmap")
        (appArg true) :=
  issue_and_project_urls openEnvFull "acme" "ENG-7" "roadmap" true rfl
    (by decide) rfl (by decide)

/-- C1: `updateIssueState` is never invoked when the branch operation
reported failure, and any issue-state mutation in the trace occurs strictly
after the branch operation, whose outcome was success. -/
theorem stateUpdate_only_after_branch_success (env : Env)
    (issueId teamId : String) (ref : Option String) (fuel : Nat)
    (tr trB : List Event) (oc : Outcome) (ok : Bool)
    (hb : branchPhase env (env.branchNameOf issueId) (preferGraphiteFlag env)
      ref fuel = some (trB, ok))
    (hs : startWorkOnIssue env issueId teamId ref fuel = some (tr, oc)) :
    (ok = false → ∀ x s, Event.updateIssueStateCall x s ∉ tr) ∧
    (∀ x s, Event.updateIssueStateCall x s ∈ tr → ok = true ∧
      ∃ rest, tr = Event.fetchIssueDetailsCall issueId :: (trB ++ rest) ∧
        Event.updateIssueStateCall x s ∈ rest) := by
  cases ok
  · rw [startWork_branch_false env issueId teamId ref fuel trB hb] at hs
    simp only [Option.some.injEq, Prod.mk.injEq] at hs
    obtain ⟨htr, -⟩ := hs
    subst htr
    have hnot : ∀ x s, Event.updateIssueStateCall x s ∉
        Event.fetchIssueDetailsCall issueId ::
          (trB ++ [Event.logOut "Branch operation failed - issue state not updated"]) := by
      intro x s hm
      rcases List.mem_cons.1 hm with h' | hm
      · cases h'
      rcases List.mem_append.1 hm with hm | hm
      · exact update_not_mem_branchPhase hb x s hm
      · rcases List.mem_singleton.1 hm with h'
        cases h'
    exact ⟨fun _ => hnot, fun x s hm => absurd hm (hnot x s)⟩
  · rw [startWork_branch_true env issueId teamId ref fuel trB hb] at hs
    simp only [Option.some.injEq, Prod.mk.injEq] at hs
    obtain ⟨htr, -⟩ := hs
    subst htr
    refine ⟨(fun h => by cases h), ?_⟩
    intro x s hm
    refine ⟨rfl, (statePhase env issueId teamId).1, rfl, ?_⟩
    rcases List.mem_cons.1 hm with h' | hm
    · cases h'
    rcases List.mem_append.1 hm with hm | hm
    · exact absurd hm (update_not_mem_branchPhase hb x s)
    · exact hm

/-- Witness for C1 on a concrete successful run. -/
theorem stateUpdate_only_after_branch_success_witness :
    (true = false → ∀ x s, Event.updateIssueStateCall x s ∉ trRun1) ∧
    (∀ x s, Event.updateIssueStateCall x s ∈ trRun1 → true = true ∧
      ∃ rest, trRun1 = Event.fetchIssueDetailsCall "ISS-1" :: (trB1 ++ rest) ∧
        Event.updateIssueStateCall x s ∈ rest) :=
  stateUpdate_only_after_branch_success envAllFree "ISS-1" "T" none 1 trRun1
    trB1 Outcome.normal true rfl rfl

/-- C2: when the issue's branch name does not exist, `startWorkOnIssue`
creates it directly — the trace records the `createBranch` call with the
optional source ref, no user prompt, no entry into the suffix search, and
no existence probe of any suffixed name. -/
theorem absent_branch_direct_create (env : Env) (issueId teamId : String)
    (ref : Option String) (fuel : Nat) (tr : List Event) (oc : Outcome)
    (hbe : env.branchExists (env.branchNameOf issueId) = false)
    (hs : startWorkOnIssue env issueId teamId ref fuel = some (tr, oc)) :
    Event.createBranchCall (env.branchNameOf issueId) (preferGraphiteFlag env)
      ref ∈ tr ∧
    (∀ m, Event.promptUser m ∉ tr) ∧
    (∀ b', Event.findAvailableCall b' ∉ tr) ∧
    (∀ n, Event.branchExistsCheck n ∈ tr → n = env.branchNameOf issueId) ∧
    (∀ k : Nat, Event.branchExistsCheck
      (suffixName (env.branchNameOf issueId) k) ∉ tr) := by
  have hb := branchPhase_absent env (env.branchNameOf issueId)
    (preferGraphiteFlag env) ref fuel hbe
  obtain ⟨rest, htr, hrest⟩ := startWork_decompose env issueId teamId ref fuel
    tr _ oc _ hb hs
  subst htr
  have hcparts := createBranch_parts env (env.branchNameOf issueId)
    (preferGraphiteFlag env) ref
  refine ⟨?_, ?_, ?_, ?_, ?_⟩
  · exact List.mem_cons.2 (Or.inr (List.mem_append.2 (Or.inl
      (List.mem_cons.2 (Or.inr (createBranchCall_mem env _ _ ref))))))
  · intro m hm
    rcases List.mem_cons.1 hm with h' | hm
    · cases h'
    rcases List.mem_append.1 hm with hm | hm
    · rcases List.mem_cons.1 hm with h' | hm
      · cases h'
      · exact absurd (hcparts _ hm) (by simp [Event.isCreatePart])
    · exact absurd (hrest _ hm) (by simp [Event.isStatePart])
  · intro b' hm
    rcases List.mem_cons.1 hm with h' | hm
    · cases h'
    rcases List.mem_append.1 hm with hm | hm
    · rcases List.mem_cons.1 hm with h' | hm
      · cases h'
      · exact absurd (hcparts _ hm) (by simp [Event.isCreatePart])
    · exact absurd (hrest _ hm) (by simp [Event.isStatePart])
  · intro n hm
    rcases List.mem_cons.1 hm with h' | hm
    · cases h'
    rcases List.mem_append.1 hm with hm | hm
    · rcases List.mem_cons.1 hm with h' | hm
      · injection h' with h''
      · exact absurd (hcparts _ hm) (by simp [Event.isCreatePart])
    · exact absurd (hrest _ hm) (by simp [Event.isStatePart])
  · intro k hm
    rcases List.mem_cons.1 hm with h' | hm
    · cases h'
    rcases List.mem_append.1 hm with hm | hm
    · rcases List.mem_cons.1 hm with h' | hm
      · injection h' with h''
        exact suffixName_ne (env.branchNameOf issueId) k h''
      · exact absurd (hcparts _ hm) (by simp [Event.isCreatePart])
    · exact absurd (hrest _ hm) (by simp [Event.isStatePart])

/-- Witness for C2 on a concrete run with an unused branch name. -/
theorem absent_branch_direct_create_witness :
    Event.createBranchCall "eng-123" false none ∈ trRun1 ∧
    (∀ m, Event.promptUser m ∉ trRun1) ∧
    (∀ b', Event.findAvailableCall b' ∉ trRun1) ∧
    (∀ n, Event.branchExistsCheck n ∈ trRun1 → n = "eng-123") ∧
    (∀ k : Nat, Event.branchExistsCheck (suffixName "eng-123" k) ∉ trRun1) :=
  absent_branch_direct_create envAllFree "ISS-1" "T" none 1 trRun1
    Outcome.normal rfl rfl

/-- C4: the suffix search terminates exactly under the precondition that
some suffix at or above 1 is unused — with such a suffix, some fuel makes
the loop return; with every suffix in use, the loop exhausts any amount of
fuel (non-termination of the unbounded `while`). -/
theorem findAvailableBranchName_termination (be : String → Bool)
    (b : String) :
    ((∃ n, 1 ≤ n ∧ be (suffixName b n) = false) →
      ∃ fuel tr r, findAvailableBranchName be b fuel = some (tr, r)) ∧
    ((∀ n, 1 ≤ n → be (suffixName b n) = true) →
      ∀ fuel, findAvailableBranchName be b fuel = none) := by
  constructor
  · rintro ⟨n, hn1, hbf⟩
    obtain ⟨tr, r, h⟩ := findAvailableAux_some be b n 1 n hn1 hbf (by omega)
    exact ⟨n, tr, r, h⟩
  · intro hall fuel
    exact findAvailableAux_none be b fuel 1 (fun n hn => hall n hn)

/-- Witness for C4: with no branch in existence, the search succeeds. -/
theorem findAvailableBranchName_termination_witness :
    ∃ fuel tr r,
      findAvailableBranchName (fun _ => false) "eng-123" fuel = some (tr, r) :=
  (findAvailableBranchName_termination (fun _ => false) "eng-123").1
    ⟨1, Nat.le_refl 1, rfl⟩

/-- C3: when the branch exists and the user selects create, the resolver
probes `b-1, b-2, …` in strictly increasing order starting at 1 and passes
to `createBranch` the name `b-n` for the least `n ≥ 1` whose branch does
not exist — no gap reuse, no randomization. -/
theorem suffix_search_least_unused (env : Env) (issueId teamId : String)
    (ref : Option String) (fuel : Nat) (tr : List Event) (oc : Outcome)
    (b : String) (hbn : env.branchNameOf issueId = b)
    (hbe : env.branchExists b = true) (ha : env.promptAnswer = "create")
    (hs : startWorkOnIssue env issueId teamId ref fuel = some (tr, oc)) :
    ∃ n, 1 ≤ n ∧ env.branchExists (suffixName b n) = false ∧
      (∀ m, 1 ≤ m → m < n → env.branchExists (suffixName b m) = true) ∧
      findAvailableBranchName env.branchExists b fuel =
        some ((List.range' 1 n).map
          (fun k => Event.branchExistsCheck (suffixName b k)), suffixName b n) ∧
      Event.createBranchCall (suffixName b n) (preferGraphiteFlag env)
        ref ∈ tr := by
  subst hbn
  have ha' : env.promptAnswer ≠ "switch" := by
    rw [ha]
    decide
  obtain ⟨trB, ok, hb⟩ :=
    startWork_some_branchPhase env issueId teamId ref fuel tr oc hs
  obtain ⟨trF, nb, hf⟩ := branchPhase_create_some env _ _ ref fuel trB ok
    hbe ha' hb
  obtain ⟨n, hn1, hnb, hbf, hall, htrF⟩ :=
    findAvailableAux_spec env.branchExists _ fuel 1 trF nb hf
  subst hnb
  have hb' := branchPhase_create env _ (preferGraphiteFlag env) ref fuel trF
    _ hbe ha' hf
  rw [hb] at hb'
  simp only [Option.some.injEq, Prod.mk.injEq] at hb'
  obtain ⟨htrB, -⟩ := hb'
  obtain ⟨rest, htr, -⟩ :=
    startWork_decompose env issueId teamId ref fuel tr trB oc ok hb hs
  subst htr
  refine ⟨n, hn1, hbf, hall, ?_, ?_⟩
  · rw [htrF] at hf
    have h1 : n + 1 - 1 = n := by omega
    rw [h1] at hf
    exact hf
  · rw [htrB]
    exact List.mem_cons.2 (Or.inr (List.mem_append.2 (Or.inl
      (List.mem_cons.2 (Or.inr (List.mem_cons.2 (Or.inr (List.mem_cons.2
        (Or.inr (List.mem_append.2 (Or.inr
          (createBranchCall_mem env _ _ ref))))))))))))

/-- Witness for C3 on a concrete run with `eng-123` and `eng-123-1`
taken. -/
theorem suffix_search_least_unused_witness :
    ∃ n, 1 ≤ n ∧ envCollide.branchExists (suffixName "eng-123" n) = false ∧
      (∀ m, 1 ≤ m → m < n →
        envCollide.branchExists (suffixName "eng-123" m) = true) ∧
      findAvailableBranchName envCollide.branchExists "eng-123" 10 =
        some ((List.range' 1 n).map
          (fun k => Event.branchExistsCheck (suffixName "eng-123" k)),
          suffixName "eng-123" n) ∧
      Event.createBranchCall (suffixName "eng-123" n) false none ∈ trRun2 :=
  suffix_search_least_unused envCollide "ISS-1" "T" none 10 trRun2
    Outcome.normal "eng-123" rfl rfl rfl rfl

/-- C7: after a successful branch operation, a throw from
`getStartedState` or `updateIssueState` is caught and logged,
`startWorkOnIssue` returns normally without rethrowing, and no compensating
VCS command follows the branch phase. -/
theorem post_success_errors_caught (env : Env) (issueId teamId : String)
    (ref : Option String) (fuel : Nat) (trB : List Event)
    (hb : branchPhase env (env.branchNameOf issueId) (preferGraphiteFlag env)
      ref fuel = some (trB, true))
    (herr : (∃ e, env.startedState teamId = Except.error e) ∨
      (issueId ≠ "" ∧ ∃ st e, env.startedState teamId = Except.ok st ∧
        env.updateResult issueId st.id = Except.error e)) :
    ∃ rest, startWorkOnIssue env issueId teamId ref fuel =
      some (Event.fetchIssueDetailsCall issueId :: (trB ++ rest),
        Outcome.normal) ∧
      (∃ m, Event.logErr m ∈ rest) ∧
      (∀ exe args, Event.runCmd exe args ∉ rest) := by
  have hsw := startWork_branch_true env issueId teamId ref fuel trB hb
  rcases herr with ⟨e, he⟩ | ⟨hi, st, e, hst, hu⟩
  · rw [statePhase_error env issueId teamId e he] at hsw
    refine ⟨[Event.getStartedStateCall teamId,
      Event.logErr ("Failed to update issue state: " ++ e)], hsw,
      ⟨"Failed to update issue state: " ++ e, by simp⟩, ?_⟩
    intro exe args hm
    simp at hm
  · rw [statePhase_updError env issueId teamId e st hi hst hu] at hsw
    refine ⟨[Event.getStartedStateCall teamId,
      Event.updateIssueStateCall issueId st.id,
      Event.logErr ("Failed to update issue state: " ++ e)], hsw,
      ⟨"Failed to update issue state: " ++ e, by simp⟩, ?_⟩
    intro exe args hm
    simp at hm

/-- Witness for C7 on a concrete run whose `getStartedState` throws. -/
theorem post_success_errors_caught_witness :
    ∃ rest, startWorkOnIssue envThrow "ISS-1" "T" none 1 =
      some (Event.fetchIssueDetailsCall "ISS-1" :: (trB1 ++ rest),
        Outcome.normal) ∧
      (∃ m, Event.logErr m ∈ rest) ∧
      (∀ exe args, Event.runCmd exe args ∉ rest) :=
  post_success_errors_caught envThrow "ISS-1" "T" none 1 trB1 rfl
    (Or.inl ⟨"network", rfl⟩)

/-- C9: with an absent branch and a `prefer_graphite` option equal to any
string other than `"true"`, the only subprocess the run invokes is
`git checkout -b <branchName> <sourceRef or HEAD>`, and on its success
(with a resolvable started state) the `updateIssueState` call with the
started state id is recorded; the stacked tool `gt` is invoked only when
the option equals the string `"true"`. -/
theorem plain_git_create_path :
    (∀ (env : Env) (issueId teamId : String) (ref : Option String)
        (fuel : Nat) (tr : List Event) (oc : Outcome) (g : String),
      env.preferGraphiteOpt = some g → g ≠ "true" →
      env.branchExists (env.branchNameOf issueId) = false →
      startWorkOnIssue env issueId teamId ref fuel = some (tr, oc) →
      Event.runCmd "git"
        ["checkout", "-b", env.branchNameOf issueId, orHead ref] ∈ tr ∧
      (∀ exe args, Event.runCmd exe args ∈ tr → exe = "git" ∧
        args = ["checkout", "-b", env.branchNameOf issueId, orHead ref]) ∧
      (∀ st, env.cmdSuccess "git"
          ["checkout", "-b", env.branchNameOf issueId, orHead ref] = true →
        env.startedState teamId = Except.ok st → issueId ≠ "" →
        Event.updateIssueStateCall issueId st.id ∈ tr)) ∧
    (∀ (env : Env) (issueId teamId : String) (ref : Option String)
        (fuel : Nat) (tr : List Event) (oc : Outcome) (args : List String),
      startWorkOnIssue env issueId teamId ref fuel = some (tr, oc) →
      Event.runCmd "gt" args ∈ tr → env.preferGraphiteOpt = some "true") := by
  constructor
  · intro env issueId teamId ref fuel tr oc g hopt hg hbe hs
    have hflag : preferGraphiteFlag env = false := by
      simp [preferGraphiteFlag, hopt, hg]
    have hb := branchPhase_absent env (env.branchNameOf issueId)
      (preferGraphiteFlag env) ref fuel hbe
    obtain ⟨rest, htr, hrest⟩ := startWork_decompose env issueId teamId ref
      fuel tr _ oc _ hb hs
    rw [hflag] at htr
    refine ⟨?_, ?_, ?_⟩
    · rw [htr, createBranch_false_eq]
      exact List.mem_cons.2 (Or.inr (List.mem_append.2 (Or.inl
        (List.mem_cons.2 (Or.inr (List.mem_cons.2 (Or.inr
          (List.mem_cons_self _ _))))))))
    · intro exe args hm
      rw [htr] at hm
      rcases List.mem_cons.1 hm with h' | hm
      · cases h'
      rcases List.mem_append.1 hm with hm | hm
      · rcases List.mem_cons.1 hm with h' | hm
        · cases h'
        · exact runCmd_mem_createBranch_false env _ ref exe args hm
      · exact absurd (hrest _ hm) (by simp [Event.isStatePart])
    · intro st hsucc hst hi
      have hok : (createBranch env (env.branchNameOf issueId)
          (preferGraphiteFlag env) ref).2 = true := by
        rw [hflag, createBranch_false_eq]
        exact hsucc
      rw [hok] at hb
      rw [startWork_branch_true env issueId teamId ref fuel _ hb] at hs
      simp only [Option.some.injEq, Prod.mk.injEq] at hs
      obtain ⟨htr', -⟩ := hs
      rw [← htr']
      exact List.mem_cons.2 (Or.inr (List.mem_append.2 (Or.inr
        (update_mem_statePhase env issueId teamId st hi hst))))
  · intro env issueId teamId ref fuel tr oc args hs hm
    cases hflag : preferGraphiteFlag env
    · exfalso
      obtain ⟨trB, ok, hb⟩ :=
        startWork_some_branchPhase env issueId teamId ref fuel tr oc hs
      obtain ⟨rest, htr, hrest⟩ := startWork_decompose env issueId teamId ref
        fuel tr trB oc ok hb hs
      rw [hflag] at hb
      rw [htr] at hm
      rcases List.mem_cons.1 hm with h' | hm
      · cases h'
      rcases List.mem_append.1 hm with hm | hm
      · have hexe := runCmd_exe_branchPhase_false env _ ref fuel trB ok hb
          "gt" args hm
        simp at hexe
      · exact absurd (hrest _ hm) (by simp [Event.isStatePart])
    · have := hflag
      simp only [preferGraphiteFlag, beq_iff_eq] at this
      exact this

/-- Witness for C9 on a concrete plain-git run. -/
theorem plain_git_create_path_witness :
    Event.runCmd "git" ["checkout", "-b", "eng-123", "HEAD"] ∈ trRun1 ∧
    (∀ exe args, Event.runCmd exe args ∈ trRun1 → exe = "git" ∧
      args = ["checkout", "-b", "eng-123", "HEAD"]) ∧
    (∀ st, envAllFree.cmdSuccess "git"
        ["checkout", "-b", "eng-123", "HEAD"] = true →
      envAllFree.startedState "T" = Except.ok st → "ISS-1" ≠ "" →
      Event.updateIssueStateCall "ISS-1" st.id ∈ trRun1) :=
  plain_git_create_path.1 envAllFree "ISS-1" "T" none 1 trRun1 Outcome.normal
    "false" rfl (by decide) rfl rfl

/-- C10: with a non-empty issue id, `startWorkOnIssue` never terminates the
process and never prints the missing-issue-id error (that branch is
unreachable); with an empty issue id, a successful branch operation and a
resolvable started state, the run exits with status 1 before any
issue-state update. -/
theorem nonempty_issueId_no_exit :
    (∀ (env : Env) (issueId teamId : String) (ref : Option String)
        (fuel : Nat) (tr : List Event) (oc : Outcome),
      issueId ≠ "" →
      startWorkOnIssue env issueId teamId ref fuel = some (tr, oc) →
      oc = Outcome.normal ∧ Event.logErr "No issue ID resolved" ∉ tr) ∧
    (∀ (env : Env) (teamId : String) (ref : Option String) (fuel : Nat)
        (tr trB : List Event) (oc : Outcome) (st : WorkflowState),
      branchPhase env (env.branchNameOf "") (preferGraphiteFlag env) ref
        fuel = some (trB, true) →
      env.startedState teamId = Except.ok st →
      startWorkOnIssue env "" teamId ref fuel = some (tr, oc) →
      oc = Outcome.exited 1 ∧
        ∀ x s, Event.updateIssueStateCall x s ∉ tr) := by
  constructor
  · intro env issueId teamId ref fuel tr oc hi hs
    obtain ⟨trB, ok, hb⟩ :=
      startWork_some_branchPhase env issueId teamId ref fuel tr oc hs
    cases ok
    · rw [startWork_branch_false env issueId teamId ref fuel trB hb] at hs
      simp only [Option.some.injEq, Prod.mk.injEq] at hs
      obtain ⟨htr, hoc⟩ := hs
      refine ⟨hoc.symm, ?_⟩
      rw [← htr]
      intro hm
      rcases List.mem_cons.1 hm with h' | hm
      · cases h'
      rcases List.mem_append.1 hm with hm | hm
      · exact logErr_not_mem_branchPhase hb _ hm
      · rcases List.mem_singleton.1 hm with h'
        cases h'
    · rw [startWork_branch_true env issueId teamId ref fuel trB hb] at hs
      simp only [Option.some.injEq, Prod.mk.injEq] at hs
      obtain ⟨htr, hoc⟩ := hs
      refine ⟨hoc.symm.trans (statePhase_outcome env issueId teamId hi), ?_⟩
      rw [← htr]
      intro hm
      rcases List.mem_cons.1 hm with h' | hm
      · cases h'
      rcases List.mem_append.1 hm with hm | hm
      · exact logErr_not_mem_branchPhase hb _ hm
      · exact noIssueMsg_not_mem_statePhase env issueId teamId hi hm
  · intro env teamId ref fuel tr trB oc st hb hst hs
    rw [startWork_branch_true env "" teamId ref fuel trB hb] at hs
    rw [statePhase_empty env teamId st hst] at hs
    simp only [Option.some.injEq, Prod.mk.injEq] at hs
    obtain ⟨htr, hoc⟩ := hs
    refine ⟨hoc.symm, ?_⟩
    intro x s hm
    rw [← htr] at hm
    rcases List.mem_cons.1 hm with h' | hm
    · cases h'
    rcases List.mem_append.1 hm with hm | hm
    · exact update_not_mem_branchPhase hb x s hm
    · rcases List.mem_cons.1 hm with h' | hm
      · cases h'
      · rcases List.mem_singleton.1 hm with h'
        cases h'

/-- Witness for C10 on a concrete run with a non-empty issue id. -/
theorem nonempty_issueId_no_exit_witness :
    Outcome.normal = Outcome.normal ∧
    Event.logErr "No issue ID resolved" ∉ trRun1 :=
  nonempty_issueId_no_exit.1 envAllFree "ISS-1" "T" none 1 trRun1
    Outcome.normal (by decide) rfl

end LinearCli
